import Mathlib

/-!
Shallow embedding of the breathing/focus-timer core of the repository
(the phase-scheduling and elapsed-time engine of the main App component,
together with the types of src/types.ts).

Time values (timestamps in milliseconds, durations and remaining times in
seconds) are modelled as rationals; the source constants 0.05, 0.8, 1.8
appear as 1/20, 4/5 and 9/5. Optional fields of the Preset record
(phases, defaultDuration) are modelled with Option; the JS truthiness
test of `preset.defaultDuration || 10` is modelled by jsOr (undefined and
0 are the falsy numeric cases that occur). List indexing phases[i] is
modelled with List.getD and a dummy phase; every theorem that touches an
index carries the bound that makes the dummy irrelevant.
-/

namespace BreathEx

/-- PhaseType from src/types.ts. -/
inductive PhaseType where
  | Inhale
  | Hold
  | Exhale
  | Sustain
deriving DecidableEq, Repr

/-- BreathPhase from src/types.ts (label, duration in seconds, type). -/
structure BreathPhase where
  label : String
  duration : ℚ
  type : PhaseType
deriving DecidableEq, Repr

/-- The two values of the Preset.type field in src/types.ts. -/
inductive PresetType where
  | breathing
  | timer
deriving DecidableEq, Repr

/-- Preset from src/types.ts, restricted to the fields the engine reads:
kind, optional phase list, optional default duration in minutes. -/
structure Preset where
  type : PresetType
  phases : Option (List BreathPhase)
  defaultDuration : Option ℚ
deriving DecidableEq, Repr

/-- AppState from src/types.ts. -/
inductive AppState where
  | Idle
  | Running
  | Paused
  | Completed
deriving DecidableEq, Repr

/-- The mutable session state of the App component: activePreset, appState,
currentPhaseIndex, phaseTimeLeft, totalSessionTime, timerDuration, and the
previousTimeRef baseline of the animation loop. -/
structure SessionState where
  activePreset : Preset
  appState : AppState
  currentPhaseIndex : ℕ
  phaseTimeLeft : ℚ
  totalSessionTime : ℚ
  timerDuration : ℚ
  previousTime : Option ℚ
deriving DecidableEq, Repr

/-- Default used to make phases[i] total; all theorems carry index bounds
that keep it out of reach. -/
def dummyPhase : BreathPhase := { label := "", duration := 0, type := PhaseType.Sustain }

/-- JS `x || fb` on an optional number: undefined and 0 fall back. -/
def jsOr (x : Option ℚ) (fb : ℚ) : ℚ :=
  match x with
  | none => fb
  | some v => if v = 0 then fb else v

/-- initPreset (part_001 lines 39-50): select a preset and reinitialize
the session: Idle, totalSessionTime 0; for a breathing preset with phases,
index 0 and phaseTimeLeft = phases[0].duration; for a timer preset,
timerDuration = (defaultDuration || 10) * 60. -/
def initPreset (preset : Preset) (s : SessionState) : SessionState :=
  let s1 : SessionState :=
    { s with activePreset := preset, appState := AppState.Idle, totalSessionTime := 0 }
  match preset.type, preset.phases with
  | PresetType.breathing, some ps =>
      { s1 with currentPhaseIndex := 0, phaseTimeLeft := (ps.getD 0 dummyPhase).duration }
  | PresetType.breathing, none => s1
  | PresetType.timer, _ =>
      { s1 with timerDuration := jsOr preset.defaultDuration 10 * 60 }

/-- The delta computed by animate (line 57): (time - previous) / 1000 seconds. -/
def tickDelta (time prev : ℚ) : ℚ := (time - prev) / 1000

/-- The per-preset part of a tick (lines 61-76): breathing decrements
phaseTimeLeft; timer decrements timerDuration and, on crossing ≤ 0, clamps
to 0 and moves to Completed. -/
def advancePreset (d : ℚ) (s : SessionState) : SessionState :=
  match s.activePreset.type, s.activePreset.phases with
  | PresetType.breathing, some _ => { s with phaseTimeLeft := s.phaseTimeLeft - d }
  | PresetType.breathing, none => s
  | PresetType.timer, _ =>
      if s.timerDuration - d ≤ 0 then
        { s with appState := AppState.Completed, timerDuration := 0 }
      else
        { s with timerDuration := s.timerDuration - d }

/-- animate (part_001 lines 53-79): a tick at a timestamp. Not Running:
return unchanged. First tick (no baseline): only record the timestamp.
Otherwise compute the delta, add it to totalSessionTime, advance the
preset, and record the timestamp as the new baseline. -/
def tick (time : ℚ) (s : SessionState) : SessionState :=
  if s.appState = AppState.Running then
    match s.previousTime with
    | none => { s with previousTime := some time }
    | some prev =>
        let d := tickDelta time prev
        { advancePreset d { s with totalSessionTime := s.totalSessionTime + d } with
            previousTime := some time }
  else s

/-- The phase-switch effect (part_001 lines 83-92): for a Running breathing
preset with phases, when phaseTimeLeft ≤ 0.05 move to the cyclically next
phase and reset phaseTimeLeft to its full duration. -/
def phaseSwitchEffect (s : SessionState) : SessionState :=
  match s.activePreset.type, s.activePreset.phases with
  | PresetType.breathing, some ps =>
      if s.appState = AppState.Running ∧ s.phaseTimeLeft ≤ 1/20 then
        { s with
            currentPhaseIndex := (s.currentPhaseIndex + 1) % ps.length,
            phaseTimeLeft := (ps.getD ((s.currentPhaseIndex + 1) % ps.length) dummyPhase).duration }
      else s
  | _, _ => s

/-- The start/stop effect (part_001 lines 95-105): whenever appState is not
Running, the animation frame is cancelled and the previousTime baseline is
cleared. -/
def startStopEffect (s : SessionState) : SessionState :=
  if s.appState = AppState.Running then s
  else { s with previousTime := none }

/-- toggleTimer (part_001 lines 107-113): Running becomes Paused, anything
else becomes Running. -/
def toggleTimer (s : SessionState) : SessionState :=
  if s.appState = AppState.Running then { s with appState := AppState.Paused }
  else { s with appState := AppState.Running }

/-- getVisualState (part_001 lines 120-159), reduced to the computed scale
and label. No phases: resting scale 1, label Focus. Otherwise
progress = 1 - phaseTimeLeft / duration (unclamped in the source), and the
scale is 1 + progress*0.8 for Inhale, 1.8 - progress*0.8 for Exhale, and
for Hold 1.8 exactly when the previous phase (cyclic predecessor) is an
Inhale, or is a Hold at a positive index whose own predecessor at
index - 1 (no wrap) is an Inhale; otherwise 1. -/
def getVisualState (s : SessionState) : ℚ × String :=
  match s.activePreset.phases with
  | none => (1, "Focus")
  | some ps =>
      let phase := ps.getD s.currentPhaseIndex dummyPhase
      let progress : ℚ := 1 - s.phaseTimeLeft / phase.duration
      let prevPhaseIndex : ℕ :=
        if s.currentPhaseIndex = 0 then ps.length - 1 else s.currentPhaseIndex - 1
      let prevPhase := ps.getD prevPhaseIndex dummyPhase
      let targetScale : ℚ :=
        match phase.type with
        | PhaseType.Inhale => 1 + progress * (4/5)
        | PhaseType.Exhale => 9/5 - progress * (4/5)
        | PhaseType.Hold =>
            if prevPhase.type = PhaseType.Inhale ∨
               (prevPhase.type = PhaseType.Hold ∧ 0 < prevPhaseIndex ∧
                (ps.getD (prevPhaseIndex - 1) dummyPhase).type = PhaseType.Inhale)
            then 9/5 else 1
        | PhaseType.Sustain => 1
      (targetScale, phase.label)

/-- The commands and tick events the component reacts to. reset (lines
115-117) reinitializes the active preset; select comes from the preset
menu (onSelect = initPreset). -/
inductive Event where
  | toggle
  | reset
  | select (p : Preset)
  | tick (t : ℚ)
  | phaseSwitch

/-- The raw handler of each event, before React effects run. -/
def applyEvent (s : SessionState) : Event → SessionState
  | Event.toggle => toggleTimer s
  | Event.reset => initPreset s.activePreset s
  | Event.select p => initPreset p s
  | Event.tick t => tick t s
  | Event.phaseSwitch => phaseSwitchEffect s

/-- One step of the component: the handler runs, and when it changed
appState the start/stop effect (which clears the baseline outside Running)
runs after it, as the effect with dependency appState does in the source. -/
def step (s : SessionState) (e : Event) : SessionState :=
  if (applyEvent s e).appState = s.appState then applyEvent s e
  else startStopEffect (applyEvent s e)

/-- A preset the loader contract admits: breathing presets carry a
non-empty phase list of positive durations, timer presets a positive
default duration. -/
def ValidPreset (p : Preset) : Prop :=
  match p.type, p.phases, p.defaultDuration with
  | PresetType.breathing, some ps, _ => ps ≠ [] ∧ ∀ ph ∈ ps, 0 < ph.duration
  | PresetType.breathing, none, _ => False
  | PresetType.timer, _, some d => 0 < d
  | PresetType.timer, _, none => False

instance (p : Preset) : Decidable (ValidPreset p) := by
  unfold ValidPreset
  cases hp : p.type <;> cases hph : p.phases <;> cases hd : p.defaultDuration <;>
    exact inferInstance

/-- States reachable from selecting a valid preset in an arbitrary prior
state, by commands, phase-switch effects, and ticks whose timestamps never
run backwards relative to the recorded baseline (the frame source delivers
monotone timestamps, per the delivery contract). -/
inductive Reachable : SessionState → Prop where
  | init (p : Preset) (s0 : SessionState) : ValidPreset p → Reachable (initPreset p s0)
  | toggle {s : SessionState} : Reachable s → Reachable (step s Event.toggle)
  | reset {s : SessionState} : Reachable s → Reachable (step s Event.reset)
  | select {s : SessionState} (p : Preset) :
      ValidPreset p → Reachable s → Reachable (step s (Event.select p))
  | phaseSwitch {s : SessionState} : Reachable s → Reachable (step s (Event.phaseSwitch))
  | tick {s : SessionState} (t : ℚ) :
      Reachable s → (∀ t0, s.previousTime = some t0 → t0 ≤ t) →
      Reachable (step s (Event.tick t))

/-- The inductive invariant: the active preset is valid, and for breathing
presets the phase index is in range with phaseTimeLeft at most the current
nominal duration plus epsilon, while for timer presets timerDuration stays
within [0, (defaultDuration || 10) * 60]. -/
def Inv (s : SessionState) : Prop :=
  ValidPreset s.activePreset ∧
  match s.activePreset.type, s.activePreset.phases with
  | PresetType.breathing, some ps =>
      s.currentPhaseIndex < ps.length ∧
      s.phaseTimeLeft ≤ (ps.getD s.currentPhaseIndex dummyPhase).duration + 1/20
  | PresetType.breathing, none => True
  | PresetType.timer, _ =>
      0 ≤ s.timerDuration ∧ s.timerDuration ≤ jsOr s.activePreset.defaultDuration 10 * 60

/-- Spec-side Hold lookback, for the refinement comparison in the Hold
branch of the mapper: walk backwards from index j through consecutive Hold
phases, wrapping cyclically, until a non-Hold phase is found; an Inhale
gives 1.8, an Exhale (or anything else, or an all-Hold cycle once the fuel
of one full lap is spent) gives 1. -/
def holdLookback (ps : List BreathPhase) : ℕ → ℕ → ℚ
  | 0, _ => 1
  | fuel + 1, j =>
      match (ps.getD j dummyPhase).type with
      | PhaseType.Inhale => 9/5
      | PhaseType.Hold => holdLookback ps fuel ((j + ps.length - 1) % ps.length)
      | _ => 1

/-- Spec-side scale of a Hold phase at index i: the lookback started at the
cyclic predecessor of i. -/
def specHoldScale (ps : List BreathPhase) (i : ℕ) : ℚ :=
  holdLookback ps ps.length ((i + ps.length - 1) % ps.length)

/-- The phase list of a one-phase breathing preset: a single 4-second Inhale. -/
def singleInhalePhases : List BreathPhase :=
  [{ label := "Inhale", duration := 4, type := PhaseType.Inhale }]

/-- A one-phase breathing preset. -/
def singleInhalePreset : Preset :=
  { type := PresetType.breathing, phases := some singleInhalePhases, defaultDuration := none }

/-- A 1-minute timer preset. -/
def timerPreset1 : Preset :=
  { type := PresetType.timer, phases := none, defaultDuration := some 1 }

/-- Phases whose Hold at index 3 is separated from the Inhale at index 0 by
two further Holds. -/
def holdChainPhases : List BreathPhase :=
  [{ label := "Inhale", duration := 4, type := PhaseType.Inhale },
   { label := "Hold", duration := 4, type := PhaseType.Hold },
   { label := "Hold", duration := 4, type := PhaseType.Hold },
   { label := "Hold", duration := 4, type := PhaseType.Hold }]

/-- The breathing preset over holdChainPhases. -/
def holdChainPreset : Preset :=
  { type := PresetType.breathing, phases := some holdChainPhases, defaultDuration := none }

/-- An arbitrary prior session state to select presets from. -/
def blank : SessionState :=
  { activePreset := timerPreset1, appState := AppState.Idle, currentPhaseIndex := 0,
    phaseTimeLeft := 0, totalSessionTime := 0, timerDuration := 0, previousTime := none }

/-- Trace for the unclamped-progress counterexample: select the one-phase
Inhale preset, start, baseline tick at 0 ms, then a 6-second frame gap. -/
def c5s0 : SessionState := initPreset singleInhalePreset blank

def c5s1 : SessionState := step c5s0 Event.toggle

def c5s2 : SessionState := step c5s1 (Event.tick 0)

def c5s3 : SessionState := step c5s2 (Event.tick 6000)

/-- Trace for the Hold-lookback counterexample: run holdChainPreset through
three full phases, landing on the Hold at index 3. -/
def c6s0 : SessionState := initPreset holdChainPreset blank

def c6s1 : SessionState := step c6s0 Event.toggle

def c6s2 : SessionState := step c6s1 (Event.tick 0)

def c6s3 : SessionState := step c6s2 (Event.tick 4000)

def c6s4 : SessionState := step c6s3 Event.phaseSwitch

def c6s5 : SessionState := step c6s4 (Event.tick 8000)

def c6s6 : SessionState := step c6s5 Event.phaseSwitch

def c6s7 : SessionState := step c6s6 (Event.tick 12000)

def c6s8 : SessionState := step c6s7 Event.phaseSwitch

/-- Trace for the Completed-toggle counterexample: select the 1-minute
timer, start, baseline tick at 0 ms, then a frame 70 seconds later, which
completes the timer. -/
def c7s0 : SessionState := initPreset timerPreset1 blank

def c7s1 : SessionState := step c7s0 Event.toggle

def c7s2 : SessionState := step c7s1 (Event.tick 0)

def c7s3 : SessionState := step c7s2 (Event.tick 70000)

/-! Helper lemmas: the start/stop effect only touches the baseline, so all
other fields of a step are those of the raw handler. -/

@[simp] theorem startStopEffect_appState (s : SessionState) :
    (startStopEffect s).appState = s.appState := by
  unfold startStopEffect; split <;> rfl

@[simp] theorem startStopEffect_activePreset (s : SessionState) :
    (startStopEffect s).activePreset = s.activePreset := by
  unfold startStopEffect; split <;> rfl

@[simp] theorem startStopEffect_currentPhaseIndex (s : SessionState) :
    (startStopEffect s).currentPhaseIndex = s.currentPhaseIndex := by
  unfold startStopEffect; split <;> rfl

@[simp] theorem startStopEffect_phaseTimeLeft (s : SessionState) :
    (startStopEffect s).phaseTimeLeft = s.phaseTimeLeft := by
  unfold startStopEffect; split <;> rfl

@[simp] theorem startStopEffect_totalSessionTime (s : SessionState) :
    (startStopEffect s).totalSessionTime = s.totalSessionTime := by
  unfold startStopEffect; split <;> rfl

@[simp] theorem startStopEffect_timerDuration (s : SessionState) :
    (startStopEffect s).timerDuration = s.timerDuration := by
  unfold startStopEffect; split <;> rfl

@[simp] theorem step_appState (s : SessionState) (e : Event) :
    (step s e).appState = (applyEvent s e).appState := by
  unfold step; split <;> simp

@[simp] theorem step_activePreset (s : SessionState) (e : Event) :
    (step s e).activePreset = (applyEvent s e).activePreset := by
  unfold step; split <;> simp

@[simp] theorem step_currentPhaseIndex (s : SessionState) (e : Event) :
    (step s e).currentPhaseIndex = (applyEvent s e).currentPhaseIndex := by
  unfold step; split <;> simp

@[simp] theorem step_phaseTimeLeft (s : SessionState) (e : Event) :
    (step s e).phaseTimeLeft = (applyEvent s e).phaseTimeLeft := by
  unfold step; split <;> simp

@[simp] theorem step_totalSessionTime (s : SessionState) (e : Event) :
    (step s e).totalSessionTime = (applyEvent s e).totalSessionTime := by
  unfold step; split <;> simp

@[simp] theorem step_timerDuration (s : SessionState) (e : Event) :
    (step s e).timerDuration = (applyEvent s e).timerDuration := by
  unfold step; split <;> simp

theorem valid_singleInhalePreset : ValidPreset singleInhalePreset := by
  unfold ValidPreset singleInhalePreset singleInhalePhases
  refine ⟨by simp, ?_⟩
  intro ph hph
  simp only [List.mem_singleton] at hph
  rw [hph]
  norm_num

theorem valid_timerPreset1 : ValidPreset timerPreset1 := by
  unfold ValidPreset timerPreset1
  norm_num

theorem valid_holdChainPreset : ValidPreset holdChainPreset := by
  unfold ValidPreset holdChainPreset holdChainPhases
  refine ⟨by simp, ?_⟩
  intro ph hph
  simp only [List.mem_cons, List.not_mem_nil, or_false] at hph
  rcases hph with h | h | h | h <;> rw [h] <;> norm_num

/-! Evaluation of the concrete traces, one step at a time. -/

theorem c5s0_eval : c5s0 =
    { activePreset := singleInhalePreset, appState := AppState.Idle, currentPhaseIndex := 0,
      phaseTimeLeft := 4, totalSessionTime := 0, timerDuration := 0, previousTime := none } := by
  simp [c5s0, initPreset, blank, singleInhalePreset, singleInhalePhases, dummyPhase]

theorem c5s1_eval : c5s1 =
    { activePreset := singleInhalePreset, appState := AppState.Running, currentPhaseIndex := 0,
      phaseTimeLeft := 4, totalSessionTime := 0, timerDuration := 0, previousTime := none } := by
  rw [c5s1, c5s0_eval]
  simp [step, applyEvent, toggleTimer, startStopEffect]

theorem c5s2_eval : c5s2 =
    { activePreset := singleInhalePreset, appState := AppState.Running, currentPhaseIndex := 0,
      phaseTimeLeft := 4, totalSessionTime := 0, timerDuration := 0, previousTime := some 0 } := by
  rw [c5s2, c5s1_eval]
  simp [step, applyEvent, tick, startStopEffect]

theorem c5s3_eval : c5s3 =
    { activePreset := singleInhalePreset, appState := AppState.Running, currentPhaseIndex := 0,
      phaseTimeLeft := -2, totalSessionTime := 6, timerDuration := 0, previousTime := some 6000 } := by
  rw [c5s3, c5s2_eval]
  norm_num [step, applyEvent, tick, advancePreset, tickDelta, startStopEffect, singleInhalePreset, singleInhalePhases]

theorem reach_c5s1 : Reachable c5s1 :=
  Reachable.toggle (Reachable.init singleInhalePreset blank valid_singleInhalePreset)

theorem reach_c5s2 : Reachable c5s2 := by
  refine Reachable.tick 0 reach_c5s1 ?_
  intro t0 h
  rw [c5s1_eval] at h
  exact absurd h (by simp)

theorem reach_c5s3 : Reachable c5s3 := by
  refine Reachable.tick 6000 reach_c5s2 ?_
  intro t0 h
  rw [c5s2_eval] at h
  simp only [Option.some.injEq] at h
  rw [← h]
  norm_num

theorem c6s0_eval : c6s0 =
    { activePreset := holdChainPreset, appState := AppState.Idle, currentPhaseIndex := 0,
      phaseTimeLeft := 4, totalSessionTime := 0, timerDuration := 0, previousTime := none } := by
  simp [c6s0, initPreset, blank, holdChainPreset, holdChainPhases, dummyPhase]

theorem c6s1_eval : c6s1 =
    { activePreset := holdChainPreset, appState := AppState.Running, currentPhaseIndex := 0,
      phaseTimeLeft := 4, totalSessionTime := 0, timerDuration := 0, previousTime := none } := by
  rw [c6s1, c6s0_eval]
  simp [step, applyEvent, toggleTimer, startStopEffect]

theorem c6s2_eval : c6s2 =
    { activePreset := holdChainPreset, appState := AppState.Running, currentPhaseIndex := 0,
      phaseTimeLeft := 4, totalSessionTime := 0, timerDuration := 0, previousTime := some 0 } := by
  rw [c6s2, c6s1_eval]
  simp [step, applyEvent, tick, startStopEffect]

theorem c6s3_eval : c6s3 =
    { activePreset := holdChainPreset, appState := AppState.Running, currentPhaseIndex := 0,
      phaseTimeLeft := 0, totalSessionTime := 4, timerDuration := 0, previousTime := some 4000 } := by
  rw [c6s3, c6s2_eval]
  norm_num [step, applyEvent, tick, advancePreset, tickDelta, startStopEffect, holdChainPreset, holdChainPhases]

theorem c6s4_eval : c6s4 =
    { activePreset := holdChainPreset, appState := AppState.Running, currentPhaseIndex := 1,
      phaseTimeLeft := 4, totalSessionTime := 4, timerDuration := 0, previousTime := some 4000 } := by
  rw [c6s4, c6s3_eval]
  norm_num [step, applyEvent, phaseSwitchEffect, startStopEffect, holdChainPreset, holdChainPhases, dummyPhase]

theorem c6s5_eval : c6s5 =
    { activePreset := holdChainPreset, appState := AppState.Running, currentPhaseIndex := 1,
      phaseTimeLeft := 0, totalSessionTime := 8, timerDuration := 0, previousTime := some 8000 } := by
  rw [c6s5, c6s4_eval]
  norm_num [step, applyEvent, tick, advancePreset, tickDelta, startStopEffect, holdChainPreset, holdChainPhases]

theorem c6s6_eval : c6s6 =
    { activePreset := holdChainPreset, appState := AppState.Running, currentPhaseIndex := 2,
      phaseTimeLeft := 4, totalSessionTime := 8, timerDuration := 0, previousTime := some 8000 } := by
  rw [c6s6, c6s5_eval]
  norm_num [step, applyEvent, phaseSwitchEffect, startStopEffect, holdChainPreset, holdChainPhases, dummyPhase]

theorem c6s7_eval : c6s7 =
    { activePreset := holdChainPreset, appState := AppState.Running, currentPhaseIndex := 2,
      phaseTimeLeft := 0, totalSessionTime := 12, timerDuration := 0, previousTime := some 12000 } := by
  rw [c6s7, c6s6_eval]
  norm_num [step, applyEvent, tick, advancePreset, tickDelta, startStopEffect, holdChainPreset, holdChainPhases]

theorem c6s8_eval : c6s8 =
    { activePreset := holdChainPreset, appState := AppState.Running, currentPhaseIndex := 3,
      phaseTimeLeft := 4, totalSessionTime := 12, timerDuration := 0, previousTime := some 12000 } := by
  rw [c6s8, c6s7_eval]
  norm_num [step, applyEvent, phaseSwitchEffect, startStopEffect, holdChainPreset, holdChainPhases, dummyPhase]

theorem reach_c6s8 : Reachable c6s8 := by
  have h0 : Reachable c6s1 :=
    Reachable.toggle (Reachable.init holdChainPreset blank valid_holdChainPreset)
  have h2 : Reachable c6s2 := by
    refine Reachable.tick 0 h0 ?_
    intro t0 h
    rw [c6s1_eval] at h
    exact absurd h (by simp)
  have h3 : Reachable c6s3 := by
    refine Reachable.tick 4000 h2 ?_
    intro t0 h
    rw [c6s2_eval] at h
    simp only [Option.some.injEq] at h
    rw [← h]; norm_num
  have h4 : Reachable c6s4 := Reachable.phaseSwitch h3
  have h5 : Reachable c6s5 := by
    refine Reachable.tick 8000 h4 ?_
    intro t0 h
    rw [c6s4_eval] at h
    simp only [Option.some.injEq] at h
    rw [← h]; norm_num
  have h6 : Reachable c6s6 := Reachable.phaseSwitch h5
  have h7 : Reachable c6s7 := by
    refine Reachable.tick 12000 h6 ?_
    intro t0 h
    rw [c6s6_eval] at h
    simp only [Option.some.injEq] at h
    rw [← h]; norm_num
  exact Reachable.phaseSwitch h7

theorem c7s0_eval : c7s0 =
    { activePreset := timerPreset1, appState := AppState.Idle, currentPhaseIndex := 0,
      phaseTimeLeft := 0, totalSessionTime := 0, timerDuration := 60, previousTime := none } := by
  simp [c7s0, initPreset, blank, timerPreset1, jsOr]

theorem c7s1_eval : c7s1 =
    { activePreset := timerPreset1, appState := AppState.Running, currentPhaseIndex := 0,
      phaseTimeLeft := 0, totalSessionTime := 0, timerDuration := 60, previousTime := none } := by
  rw [c7s1, c7s0_eval]
  simp [step, applyEvent, toggleTimer, startStopEffect]

theorem c7s2_eval : c7s2 =
    { activePreset := timerPreset1, appState := AppState.Running, currentPhaseIndex := 0,
      phaseTimeLeft := 0, totalSessionTime := 0, timerDuration := 60, previousTime := some 0 } := by
  rw [c7s2, c7s1_eval]
  simp [step, applyEvent, tick, startStopEffect]

theorem c7s3_eval : c7s3 =
    { activePreset := timerPreset1, appState := AppState.Completed, currentPhaseIndex := 0,
      phaseTimeLeft := 0, totalSessionTime := 70, timerDuration := 0, previousTime := none } := by
  rw [c7s3, c7s2_eval]
  norm_num [step, applyEvent, tick, advancePreset, tickDelta, startStopEffect, timerPreset1]
  all_goals simp

theorem reach_c7s3 : Reachable c7s3 := by
  have h0 : Reachable c7s1 :=
    Reachable.toggle (Reachable.init timerPreset1 blank valid_timerPreset1)
  have h2 : Reachable c7s2 := by
    refine Reachable.tick 0 h0 ?_
    intro t0 h
    rw [c7s1_eval] at h
    exact absurd h (by simp)
  refine Reachable.tick 70000 h2 ?_
  intro t0 h
  rw [c7s2_eval] at h
  simp only [Option.some.injEq] at h
  rw [← h]; norm_num

/-! Field lemmas for initPreset, advancePreset and tick. -/

@[simp] theorem initPreset_appState (p : Preset) (s : SessionState) :
    (initPreset p s).appState = AppState.Idle := by
  simp only [initPreset]
  split <;> rfl

@[simp] theorem initPreset_activePreset (p : Preset) (s : SessionState) :
    (initPreset p s).activePreset = p := by
  simp only [initPreset]
  split <;> rfl

@[simp] theorem initPreset_totalSessionTime (p : Preset) (s : SessionState) :
    (initPreset p s).totalSessionTime = 0 := by
  simp only [initPreset]
  split <;> rfl

theorem initPreset_breathing (p : Preset) (s : SessionState) (ps : List BreathPhase)
    (ht : p.type = PresetType.breathing) (hph : p.phases = some ps) :
    (initPreset p s).currentPhaseIndex = 0 ∧
    (initPreset p s).phaseTimeLeft = (ps.getD 0 dummyPhase).duration := by
  simp [initPreset, ht, hph]

theorem initPreset_timer (p : Preset) (s : SessionState)
    (ht : p.type = PresetType.timer) :
    (initPreset p s).timerDuration = jsOr p.defaultDuration 10 * 60 := by
  cases hph : p.phases <;> simp [initPreset, ht, hph]

@[simp] theorem advancePreset_activePreset (d : ℚ) (s : SessionState) :
    (advancePreset d s).activePreset = s.activePreset := by
  unfold advancePreset
  split
  · rfl
  · rfl
  · split <;> rfl

@[simp] theorem advancePreset_currentPhaseIndex (d : ℚ) (s : SessionState) :
    (advancePreset d s).currentPhaseIndex = s.currentPhaseIndex := by
  unfold advancePreset
  split
  · rfl
  · rfl
  · split <;> rfl

@[simp] theorem advancePreset_totalSessionTime (d : ℚ) (s : SessionState) :
    (advancePreset d s).totalSessionTime = s.totalSessionTime := by
  unfold advancePreset
  split
  · rfl
  · rfl
  · split <;> rfl

@[simp] theorem advancePreset_previousTime (d : ℚ) (s : SessionState) :
    (advancePreset d s).previousTime = s.previousTime := by
  unfold advancePreset
  split
  · rfl
  · rfl
  · split <;> rfl

theorem advancePreset_appState_of_breathing (d : ℚ) (s : SessionState)
    (h : s.activePreset.type = PresetType.breathing) :
    (advancePreset d s).appState = s.appState := by
  unfold advancePreset
  split
  · rfl
  · rfl
  · simp_all

@[simp] theorem tick_activePreset (t : ℚ) (s : SessionState) :
    (tick t s).activePreset = s.activePreset := by
  unfold tick
  split
  · split
    · rfl
    · simp
  · rfl

@[simp] theorem tick_currentPhaseIndex (t : ℚ) (s : SessionState) :
    (tick t s).currentPhaseIndex = s.currentPhaseIndex := by
  unfold tick
  split
  · split
    · rfl
    · simp
  · rfl

theorem tick_appState_of_breathing (t : ℚ) (s : SessionState)
    (h : s.activePreset.type = PresetType.breathing) :
    (tick t s).appState = s.appState := by
  unfold tick
  split
  · split
    · rfl
    · rw [show ∀ s2 : SessionState, ∀ u : Option ℚ, ({ s2 with previousTime := u } :
        SessionState).appState = s2.appState from fun _ _ => rfl]
      exact advancePreset_appState_of_breathing _ _ (by simpa using h)
  · rfl

@[simp] theorem phaseSwitchEffect_appState (s : SessionState) :
    (phaseSwitchEffect s).appState = s.appState := by
  unfold phaseSwitchEffect
  split
  · split <;> rfl
  · rfl

@[simp] theorem phaseSwitchEffect_activePreset (s : SessionState) :
    (phaseSwitchEffect s).activePreset = s.activePreset := by
  unfold phaseSwitchEffect
  split
  · split <;> rfl
  · rfl

@[simp] theorem phaseSwitchEffect_totalSessionTime (s : SessionState) :
    (phaseSwitchEffect s).totalSessionTime = s.totalSessionTime := by
  unfold phaseSwitchEffect
  split
  · split <;> rfl
  · rfl

@[simp] theorem phaseSwitchEffect_timerDuration (s : SessionState) :
    (phaseSwitchEffect s).timerDuration = s.timerDuration := by
  unfold phaseSwitchEffect
  split
  · split <;> rfl
  · rfl

theorem startStopEffect_previousTime_of_ne (s : SessionState)
    (h : s.appState ≠ AppState.Running) : (startStopEffect s).previousTime = none := by
  unfold startStopEffect
  rw [if_neg h]

theorem getD_mem_of_lt (ps : List BreathPhase) (k : ℕ) (h : k < ps.length) :
    ps.getD k dummyPhase ∈ ps := by
  rw [List.getD_eq_getElem ps dummyPhase h]
  exact List.getElem_mem h

theorem phaseSwitchEffect_pos (s : SessionState) (ps : List BreathPhase)
    (htype : s.activePreset.type = PresetType.breathing)
    (hph : s.activePreset.phases = some ps)
    (hrun : s.appState = AppState.Running)
    (hlow : s.phaseTimeLeft ≤ 1/20) :
    phaseSwitchEffect s =
      { s with
          currentPhaseIndex := (s.currentPhaseIndex + 1) % ps.length,
          phaseTimeLeft :=
            (ps.getD ((s.currentPhaseIndex + 1) % ps.length) dummyPhase).duration } := by
  unfold phaseSwitchEffect
  simp only [htype, hph]
  rw [if_pos ⟨hrun, hlow⟩]

theorem phaseSwitchEffect_neg (s : SessionState) (ps : List BreathPhase)
    (htype : s.activePreset.type = PresetType.breathing)
    (hph : s.activePreset.phases = some ps)
    (hcond : ¬ (s.appState = AppState.Running ∧ s.phaseTimeLeft ≤ 1/20)) :
    phaseSwitchEffect s = s := by
  unfold phaseSwitchEffect
  simp only [htype, hph]
  rw [if_neg hcond]

/-- C1: for a Running breathing preset with non-empty phases, once
phaseTimeLeft ≤ 0.05 the switch step moves the index to
(currentPhaseIndex + 1) mod phases.length and resets phaseTimeLeft to the
full nominal duration of the new phase (any negative carry-over is
dropped); when every duration exceeds the epsilon, applying the switch
step again changes nothing, so exactly one switch is performed. -/
theorem c1_phase_switch (s : SessionState) (ps : List BreathPhase)
    (htype : s.activePreset.type = PresetType.breathing)
    (hph : s.activePreset.phases = some ps)
    (hne : ps ≠ [])
    (hrun : s.appState = AppState.Running)
    (hlow : s.phaseTimeLeft ≤ 1/20) :
    (phaseSwitchEffect s).currentPhaseIndex = (s.currentPhaseIndex + 1) % ps.length ∧
    (phaseSwitchEffect s).phaseTimeLeft =
      (ps.getD ((s.currentPhaseIndex + 1) % ps.length) dummyPhase).duration ∧
    ((∀ ph ∈ ps, 1/20 < ph.duration) →
      phaseSwitchEffect (phaseSwitchEffect s) = phaseSwitchEffect s) := by
  have hlen : 0 < ps.length := List.length_pos.mpr hne
  have hswitch := phaseSwitchEffect_pos s ps htype hph hrun hlow
  refine ⟨by rw [hswitch], by rw [hswitch], ?_⟩
  intro hdur
  rw [hswitch]
  have hmem : ps.getD ((s.currentPhaseIndex + 1) % ps.length) dummyPhase ∈ ps :=
    getD_mem_of_lt ps _ (Nat.mod_lt _ hlen)
  have hbig := hdur _ hmem
  exact phaseSwitchEffect_neg _ ps htype hph (fun hc => absurd hc.2 (not_le.mpr hbig))

/-- C1 witness: a concrete switch on the hold-chain preset at
phaseTimeLeft = 0. -/
theorem c1_phase_switch_witness :
    (phaseSwitchEffect c6s3).currentPhaseIndex = (0 + 1) % holdChainPhases.length ∧
    (phaseSwitchEffect c6s3).phaseTimeLeft =
      (holdChainPhases.getD ((0 + 1) % holdChainPhases.length) dummyPhase).duration ∧
    phaseSwitchEffect (phaseSwitchEffect c6s3) = phaseSwitchEffect c6s3 := by
  have h := c1_phase_switch c6s3 holdChainPhases
    (by rw [c6s3_eval]; rfl) (by rw [c6s3_eval]; rfl) (by simp [holdChainPhases])
    (by rw [c6s3_eval]) (by rw [c6s3_eval]; norm_num)
  have hidx : c6s3.currentPhaseIndex = 0 := by rw [c6s3_eval]
  rw [hidx] at h
  refine ⟨h.1, h.2.1, h.2.2 ?_⟩
  intro ph hph
  unfold holdChainPhases at hph
  simp only [List.mem_cons, List.not_mem_nil, or_false] at hph
  rcases hph with h | h | h | h <;> rw [h] <;> norm_num

/-- C4: ticks delivered while the state is not Running leave the state
completely unchanged, whatever their timestamp; and a pause-resume pair
followed by the first tick of the new Running period leaves totalElapsed,
phaseTimeLeft, currentPhaseIndex and timerRemaining exactly as they were
when the pause happened, no matter how much wall-clock time the timestamp
spans. -/
theorem c4_pause_freeze :
    (∀ (s : SessionState) (t : ℚ), s.appState ≠ AppState.Running →
      step s (Event.tick t) = s) ∧
    (∀ (s : SessionState) (t : ℚ), s.appState = AppState.Running →
      step (step (step s Event.toggle) Event.toggle) (Event.tick t) =
        { s with appState := AppState.Running, previousTime := some t }) := by
  constructor
  · intro s t h
    have ht : tick t s = s := by
      unfold tick
      rw [if_neg h]
    simp [step, applyEvent, ht]
  · intro s t hrun
    have h1 : step s Event.toggle =
        { s with appState := AppState.Paused, previousTime := none } := by
      simp [step, applyEvent, toggleTimer, startStopEffect, hrun]
    have h2 : step (step s Event.toggle) Event.toggle =
        { s with appState := AppState.Running, previousTime := none } := by
      rw [h1]
      simp [step, applyEvent, toggleTimer, startStopEffect]
    rw [h2]
    simp [step, applyEvent, tick, startStopEffect]

/-- C4 witness: a paused 6-second wall-clock gap on the running one-phase
Inhale preset contributes nothing. -/
theorem c4_pause_freeze_witness :
    step c5s2 (Event.tick 10000) ≠ c5s2 ∧
    step (step c5s2 Event.toggle) (Event.tick 10000) = step c5s2 Event.toggle ∧
    step (step (step c5s2 Event.toggle) Event.toggle) (Event.tick 10000) =
      { c5s2 with appState := AppState.Running, previousTime := some 10000 } := by
  have hrun : c5s2.appState = AppState.Running := by rw [c5s2_eval]
  have hpause : (step c5s2 Event.toggle).appState = AppState.Paused := by
    rw [c5s2_eval]
    simp [step, applyEvent, toggleTimer, startStopEffect]
  have hs : step c5s2 (Event.tick 10000) =
      { activePreset := singleInhalePreset, appState := AppState.Running,
        currentPhaseIndex := 0, phaseTimeLeft := -6, totalSessionTime := 10,
        timerDuration := 0, previousTime := some 10000 } := by
    rw [c5s2_eval]
    norm_num [step, applyEvent, tick, advancePreset, tickDelta, startStopEffect,
      singleInhalePreset, singleInhalePhases]
  refine ⟨?_, ?_, c4_pause_freeze.2 c5s2 10000 hrun⟩
  · intro h
    rw [hs, c5s2_eval] at h
    simp at h
  · exact c4_pause_freeze.1 (step c5s2 Event.toggle) 10000 (by rw [hpause]; simp)

/-- C7 counterexample: a reachable Completed state (1-minute timer run to
completion) from which the toggle command (the start/pause button) does
not leave the state unchanged: it transitions to Running. -/
theorem c7_counterexample :
    Reachable c7s3 ∧ c7s3.appState = AppState.Completed ∧
    (step c7s3 Event.toggle).appState = AppState.Running ∧
    step c7s3 Event.toggle ≠ c7s3 := by
  have hc : c7s3.appState = AppState.Completed := by rw [c7s3_eval]
  have hr : (step c7s3 Event.toggle).appState = AppState.Running := by
    simp [step_appState, applyEvent, toggleTimer, hc]
  refine ⟨reach_c7s3, hc, hr, ?_⟩
  intro heq
  rw [heq, hc] at hr
  exact absurd hr (by simp)

/-- C7 amended: from Completed, toggle (which implements both start and
pause) transitions to Running rather than being a no-op, because it only
distinguishes Running from non-Running states; reset still exits Completed
to Idle. -/
theorem c7_amended (s : SessionState) (h : s.appState = AppState.Completed) :
    (step s Event.toggle).appState = AppState.Running ∧
    (step s Event.reset).appState = AppState.Idle := by
  constructor
  · simp [step_appState, applyEvent, toggleTimer, h]
  · simp [step_appState, applyEvent]

/-- C7 amended witness: the reachable completed timer state. -/
theorem c7_amended_witness :
    (step c7s3 Event.toggle).appState = AppState.Running ∧
    (step c7s3 Event.reset).appState = AppState.Idle :=
  c7_amended c7s3 (by rw [c7s3_eval])

/-- C8: selecting a preset (and reset, which is selecting the active
preset again) reinitializes from any state: appState Idle, totalElapsed 0;
breathing presets get index 0 and the first phase full duration; timer
presets with a nonzero default duration get defaultDuration * 60 seconds
remaining. -/
theorem c8_reset (s : SessionState) (p : Preset) :
    (step s (Event.select p)).appState = AppState.Idle ∧
    (step s (Event.select p)).totalSessionTime = 0 ∧
    (step s (Event.select p)).activePreset = p ∧
    step s Event.reset = step s (Event.select s.activePreset) ∧
    (∀ ps, p.type = PresetType.breathing → p.phases = some ps →
      (step s (Event.select p)).currentPhaseIndex = 0 ∧
      (step s (Event.select p)).phaseTimeLeft = (ps.getD 0 dummyPhase).duration) ∧
    (∀ d, p.type = PresetType.timer → p.defaultDuration = some d → d ≠ 0 →
      (step s (Event.select p)).timerDuration = d * 60) := by
  refine ⟨?_, ?_, ?_, rfl, ?_, ?_⟩
  · simp [step_appState, applyEvent]
  · simp [step_totalSessionTime, applyEvent]
  · simp [step_activePreset, applyEvent]
  · intro ps ht hph
    have h := initPreset_breathing p s ps ht hph
    constructor
    · rw [step_currentPhaseIndex]
      exact h.1
    · rw [step_phaseTimeLeft]
      exact h.2
  · intro d ht hd hdne
    rw [step_timerDuration]
    show (initPreset p s).timerDuration = d * 60
    rw [initPreset_timer p s ht, hd]
    simp [jsOr, hdne]

/-- C8 witness: reset behavior on concrete breathing and timer presets. -/
theorem c8_reset_witness :
    (step blank (Event.select singleInhalePreset)).appState = AppState.Idle ∧
    (step blank (Event.select singleInhalePreset)).phaseTimeLeft = 4 ∧
    (step c7s3 (Event.select timerPreset1)).timerDuration = 60 := by
  refine ⟨(c8_reset blank singleInhalePreset).1, ?_, ?_⟩
  · have h := (c8_reset blank singleInhalePreset).2.2.2.2.1 singleInhalePhases rfl rfl
    rw [h.2]
    simp [singleInhalePhases, dummyPhase]
  · have h := (c8_reset c7s3 timerPreset1).2.2.2.2.2 1 rfl rfl (by norm_num)
    rw [h]
    norm_num

/-- C10: selecting or resetting a timer preset whose defaultDuration is
missing or zero sets timerRemaining to 600 seconds, the (10 || d)-minute
fallback of the source expression (defaultDuration || 10) * 60. -/
theorem c10_timer_fallback (s : SessionState) (p : Preset)
    (ht : p.type = PresetType.timer)
    (hd : p.defaultDuration = none ∨ p.defaultDuration = some 0) :
    (initPreset p s).timerDuration = 600 := by
  rw [initPreset_timer p s ht]
  rcases hd with h | h <;> rw [h] <;> norm_num [jsOr]

/-- C10 witness: a timer preset with no default duration gets 600 seconds. -/
theorem c10_timer_fallback_witness :
    (initPreset
      { type := PresetType.timer, phases := none, defaultDuration := none } blank).timerDuration
      = 600 ∧
    (initPreset
      { type := PresetType.timer, phases := none, defaultDuration := some 0 } blank).timerDuration
      = 600 :=
  ⟨c10_timer_fallback blank _ rfl (Or.inl rfl),
   c10_timer_fallback blank _ rfl (Or.inr rfl)⟩

/-- C2: the session clock. The first tick of a Running period (no baseline)
only records the timestamp, changing nothing else (delta 0); a subsequent
tick with a monotone timestamp adds max(0, now - previous)/1000 seconds
(which the source computes as (now - previous)/1000, equal to the max
because frame timestamps never decrease) and updates the baseline; and any
step that leaves Running clears the baseline to none. -/
theorem c2_session_clock :
    (∀ (s : SessionState) (t : ℚ), s.appState = AppState.Running →
      s.previousTime = none → tick t s = { s with previousTime := some t }) ∧
    (∀ (s : SessionState) (t t0 : ℚ), s.appState = AppState.Running →
      s.previousTime = some t0 → t0 ≤ t →
      (tick t s).totalSessionTime = s.totalSessionTime + max 0 ((t - t0) / 1000) ∧
      0 ≤ (tick t s).totalSessionTime - s.totalSessionTime ∧
      (tick t s).previousTime = some t) ∧
    (∀ (s : SessionState) (e : Event), s.appState = AppState.Running →
      (step s e).appState ≠ AppState.Running → (step s e).previousTime = none) := by
  refine ⟨?_, ?_, ?_⟩
  · intro s t hrun hnone
    unfold tick
    rw [if_pos hrun, hnone]
  · intro s t t0 hrun hsome hmono
    have hd : (0 : ℚ) ≤ (t - t0) / 1000 := by
      apply div_nonneg (by linarith) (by norm_num)
    have hmax : max 0 ((t - t0) / 1000) = (t - t0) / 1000 := max_eq_right hd
    have ht : tick t s =
        { advancePreset (tickDelta t t0)
            { s with totalSessionTime := s.totalSessionTime + tickDelta t t0 } with
          previousTime := some t } := by
      unfold tick
      rw [if_pos hrun, hsome]
    rw [ht, hmax]
    refine ⟨?_, ?_, rfl⟩
    · show (advancePreset (tickDelta t t0) _).totalSessionTime = _
      rw [advancePreset_totalSessionTime]
      rfl
    · show 0 ≤ (advancePreset (tickDelta t t0) _).totalSessionTime - _
      rw [advancePreset_totalSessionTime]
      show 0 ≤ s.totalSessionTime + tickDelta t t0 - s.totalSessionTime
      unfold tickDelta
      linarith
  · intro s e hrun hne
    unfold step at hne ⊢
    by_cases hc : (applyEvent s e).appState = s.appState
    · rw [if_pos hc] at hne
      rw [hc, hrun] at hne
      exact absurd rfl hne
    · rw [if_neg hc] at hne ⊢
      refine startStopEffect_previousTime_of_ne _ ?_
      rw [startStopEffect_appState] at hne
      exact hne

/-- C2 witness: the first and second ticks of the running one-phase
preset, and the baseline clearing on pausing. -/
theorem c2_session_clock_witness :
    tick 0 c5s1 = { c5s1 with previousTime := some 0 } ∧
    (tick 6000 c5s2).totalSessionTime = c5s2.totalSessionTime + max 0 ((6000 - 0) / 1000) ∧
    (step c5s2 Event.toggle).previousTime = none := by
  have h1 := c2_session_clock.1 c5s1 0 (by rw [c5s1_eval]) (by rw [c5s1_eval])
  have h2 := (c2_session_clock.2.1 c5s2 6000 0 (by rw [c5s2_eval]) (by rw [c5s2_eval])
    (by norm_num)).1
  have h3 := c2_session_clock.2.2 c5s2 Event.toggle (by rw [c5s2_eval]) ?_
  · exact ⟨h1, h2, h3⟩
  · rw [c5s2_eval]
    simp [step, applyEvent, toggleTimer, startStopEffect]

theorem reachable_breathing_not_completed :
    ∀ {s : SessionState}, Reachable s →
      s.activePreset.type = PresetType.breathing → s.appState ≠ AppState.Completed := by
  intro s h
  induction h with
  | init p s0 hp =>
      intro _
      rw [initPreset_appState]
      simp
  | toggle h ih =>
      intro _
      rw [step_appState]
      show (toggleTimer _).appState ≠ _
      unfold toggleTimer
      split <;> simp
  | reset h ih =>
      intro _
      rw [step_appState]
      show (initPreset _ _).appState ≠ _
      rw [initPreset_appState]
      simp
  | select p hp h ih =>
      intro _
      rw [step_appState]
      show (initPreset _ _).appState ≠ _
      rw [initPreset_appState]
      simp
  | phaseSwitch h ih =>
      intro hb
      rw [step_activePreset] at hb
      rw [step_appState]
      show (phaseSwitchEffect _).appState ≠ _
      rw [phaseSwitchEffect_appState]
      exact ih (by rw [← phaseSwitchEffect_activePreset]; exact hb)
  | tick t h hmono ih =>
      intro hb
      rw [step_activePreset] at hb
      rw [step_appState]
      show (tick t _).appState ≠ _
      simp only [applyEvent, tick_activePreset] at hb
      rw [tick_appState_of_breathing t _ hb]
      exact ih hb

/-- C3: on a tick while Running a timer preset with a baseline, the state
moves to Completed with timerRemaining clamped to exactly 0 precisely when
the decremented remaining time crosses ≤ 0, and otherwise stays Running
with the decremented value; ticks arriving while Completed change nothing
(so the transition happens exactly once); and no reachable state of a
breathing preset is Completed, whatever ticks and commands are applied. -/
theorem c3_timer_completion :
    (∀ (s : SessionState) (t prev : ℚ), s.appState = AppState.Running →
      s.activePreset.type = PresetType.timer → s.previousTime = some prev →
      (s.timerDuration - tickDelta t prev ≤ 0 →
        (tick t s).appState = AppState.Completed ∧ (tick t s).timerDuration = 0) ∧
      (0 < s.timerDuration - tickDelta t prev →
        (tick t s).appState = AppState.Running ∧
        (tick t s).timerDuration = s.timerDuration - tickDelta t prev)) ∧
    (∀ (s : SessionState) (t : ℚ), s.appState = AppState.Completed →
      step s (Event.tick t) = s) ∧
    (∀ s : SessionState, Reachable s → s.activePreset.type = PresetType.breathing →
      s.appState ≠ AppState.Completed) := by
  refine ⟨?_, ?_, fun s h => reachable_breathing_not_completed h⟩
  · intro s t prev hrun htype hsome
    have ht : tick t s =
        { advancePreset (tickDelta t prev)
            { s with totalSessionTime := s.totalSessionTime + tickDelta t prev } with
          previousTime := some t } := by
      unfold tick
      rw [if_pos hrun, hsome]
    have hadv : advancePreset (tickDelta t prev)
        { s with totalSessionTime := s.totalSessionTime + tickDelta t prev } =
        if s.timerDuration - tickDelta t prev ≤ 0 then
          { s with totalSessionTime := s.totalSessionTime + tickDelta t prev,
                   appState := AppState.Completed, timerDuration := 0 }
        else
          { s with totalSessionTime := s.totalSessionTime + tickDelta t prev,
                   timerDuration := s.timerDuration - tickDelta t prev } := by
      unfold advancePreset
      cases hph : s.activePreset.phases <;> simp only [htype, hph]
    constructor
    · intro hcross
      rw [ht, hadv, if_pos hcross]
      exact ⟨rfl, rfl⟩
    · intro hpos
      rw [ht, hadv, if_neg (not_le.mpr hpos)]
      exact ⟨hrun, rfl⟩
  · intro s t hc
    have ht : tick t s = s := by
      unfold tick
      rw [if_neg (by rw [hc]; simp)]
    unfold step
    rw [show applyEvent s (Event.tick t) = tick t s from rfl, ht, if_pos rfl]

/-- C3 witness: the 1-minute timer completing on a 70-second frame gap,
staying Running on a 30-second gap, and ignoring a tick once Completed. -/
theorem c3_timer_completion_witness :
    (tick 70000 c7s2).appState = AppState.Completed ∧
    (tick 70000 c7s2).timerDuration = 0 ∧
    (tick 30000 c7s2).appState = AppState.Running ∧
    (tick 30000 c7s2).timerDuration = 60 - tickDelta 30000 0 ∧
    step c7s3 (Event.tick 99999) = c7s3 ∧
    Reachable c6s8 ∧ c6s8.appState ≠ AppState.Completed := by
  have hbase := c3_timer_completion
  have hrun : c7s2.appState = AppState.Running := by rw [c7s2_eval]
  have htype : c7s2.activePreset.type = PresetType.timer := by rw [c7s2_eval]; rfl
  have hprev : c7s2.previousTime = some 0 := by rw [c7s2_eval]
  have htd : c7s2.timerDuration = 60 := by rw [c7s2_eval]
  have h1 := (hbase.1 c7s2 70000 0 hrun htype hprev).1
    (by rw [htd]; unfold tickDelta; norm_num)
  have h2 := (hbase.1 c7s2 30000 0 hrun htype hprev).2
    (by rw [htd]; unfold tickDelta; norm_num)
  have h3 := hbase.2.1 c7s3 99999 (by rw [c7s3_eval])
  have h4 := hbase.2.2 c6s8 reach_c6s8 (by rw [c6s8_eval]; rfl)
  rw [htd] at h2
  exact ⟨h1.1, h1.2, h2.1, h2.2, h3, reach_c6s8, h4⟩

/-- C5 counterexample: the mapper does not clamp progress. A reachable
state of the one-phase Inhale preset (a single 6-second frame gap on a
4-second phase, before the switch effect corrects it) has
phaseTimeLeft = -2 and computed scale 11/5 = 2.2, outside [1.0, 1.8]. -/
theorem c5_counterexample :
    Reachable c5s3 ∧ c5s3.appState = AppState.Running ∧
    c5s3.activePreset.type = PresetType.breathing ∧
    c5s3.phaseTimeLeft < 0 ∧
    (getVisualState c5s3).1 = 11/5 ∧ ¬ (getVisualState c5s3).1 ≤ 9/5 := by
  have hv : (getVisualState c5s3).1 = 11/5 := by
    rw [c5s3_eval]
    norm_num [getVisualState, singleInhalePreset, singleInhalePhases, dummyPhase]
  refine ⟨reach_c5s3, by rw [c5s3_eval], by rw [c5s3_eval]; rfl,
    by rw [c5s3_eval]; norm_num, hv, by rw [hv]; norm_num⟩

/-- C5 amended: the mapper computes progress = 1 - phaseTimeLeft/duration
without clamping; whenever 0 ≤ phaseTimeLeft ≤ durationSeconds of the
current phase (the non-transient range), the Inhale scale
1 + progress*0.8 and the Exhale scale 1.8 - progress*0.8 lie in
[1.0, 1.8]; transiently negative phaseTimeLeft escapes that range. -/
theorem c5_amended (s : SessionState) (ps : List BreathPhase)
    (hph : s.activePreset.phases = some ps)
    (hidx : s.currentPhaseIndex < ps.length)
    (hdur : 0 < (ps.getD s.currentPhaseIndex dummyPhase).duration)
    (h0 : 0 ≤ s.phaseTimeLeft)
    (h1 : s.phaseTimeLeft ≤ (ps.getD s.currentPhaseIndex dummyPhase).duration) :
    ((ps.getD s.currentPhaseIndex dummyPhase).type = PhaseType.Inhale →
      (getVisualState s).1 =
        1 + (1 - s.phaseTimeLeft / (ps.getD s.currentPhaseIndex dummyPhase).duration) * (4/5) ∧
      1 ≤ (getVisualState s).1 ∧ (getVisualState s).1 ≤ 9/5) ∧
    ((ps.getD s.currentPhaseIndex dummyPhase).type = PhaseType.Exhale →
      (getVisualState s).1 =
        9/5 - (1 - s.phaseTimeLeft / (ps.getD s.currentPhaseIndex dummyPhase).duration) * (4/5) ∧
      1 ≤ (getVisualState s).1 ∧ (getVisualState s).1 ≤ 9/5) := by
  have hfr0 : 0 ≤ s.phaseTimeLeft / (ps.getD s.currentPhaseIndex dummyPhase).duration :=
    div_nonneg h0 (le_of_lt hdur)
  have hfr1 : s.phaseTimeLeft / (ps.getD s.currentPhaseIndex dummyPhase).duration ≤ 1 :=
    (div_le_one hdur).mpr h1
  constructor
  · intro hty
    have hv : (getVisualState s).1 =
        1 + (1 - s.phaseTimeLeft / (ps.getD s.currentPhaseIndex dummyPhase).duration) * (4/5) := by
      simp only [getVisualState, hph, hty]
    refine ⟨hv, ?_, ?_⟩ <;> rw [hv] <;> nlinarith [hfr0, hfr1]
  · intro hty
    have hv : (getVisualState s).1 =
        9/5 - (1 - s.phaseTimeLeft / (ps.getD s.currentPhaseIndex dummyPhase).duration) * (4/5) := by
      simp only [getVisualState, hph, hty]
    refine ⟨hv, ?_, ?_⟩ <;> rw [hv] <;> nlinarith [hfr0, hfr1]

/-- C5 amended witness: the freshly started one-phase Inhale preset, whose
scale is in range. -/
theorem c5_amended_witness :
    1 ≤ (getVisualState c5s2).1 ∧ (getVisualState c5s2).1 ≤ 9/5 := by
  have h := (c5_amended c5s2 singleInhalePhases
    (by rw [c5s2_eval]; rfl)
    (by rw [c5s2_eval]; norm_num [singleInhalePhases])
    (by rw [c5s2_eval]; norm_num [singleInhalePhases, dummyPhase])
    (by rw [c5s2_eval]; norm_num)
    (by rw [c5s2_eval]; norm_num [singleInhalePhases, dummyPhase])).1
    (by rw [c5s2_eval]; rfl)
  exact ⟨h.2.1, h.2.2⟩

/-- C6 counterexample: on the hold-chain preset at the Hold of index 3,
the nearest non-Hold predecessor under the cyclic lookback of the spec is
the Inhale at index 0 (specHoldScale gives 1.8), but the source checks at
most two predecessors and returns scale 1.0 — at a reachable state. -/
theorem c6_counterexample :
    Reachable c6s8 ∧
    c6s8.activePreset.phases = some holdChainPhases ∧
    c6s8.currentPhaseIndex = 3 ∧
    (holdChainPhases.getD 3 dummyPhase).type = PhaseType.Hold ∧
    specHoldScale holdChainPhases 3 = 9/5 ∧
    (getVisualState c6s8).1 = 1 ∧
    ¬ ((getVisualState c6s8).1 = 9/5 ↔ specHoldScale holdChainPhases 3 = 9/5) := by
  have hs : specHoldScale holdChainPhases 3 = 9/5 := rfl
  have hv : (getVisualState c6s8).1 = 1 := by
    rw [c6s8_eval]
    norm_num [getVisualState, holdChainPreset, holdChainPhases, dummyPhase]
    simp
  refine ⟨reach_c6s8, by rw [c6s8_eval]; rfl, by rw [c6s8_eval], rfl, hs, hv, ?_⟩
  rw [hv, hs]
  norm_num

/-- C6 amended: for a Hold phase the source returns either 1.8 or 1.0, and
it returns 1.8 exactly when the immediate cyclic predecessor is an Inhale,
or is a Hold at a positive index whose own predecessor at index - 1
(without cyclic wrap) is an Inhale; the lookback never goes further back,
so any deeper chain of Holds (and the all-Hold preset) gives 1.0. -/
theorem c6_amended (s : SessionState) (ps : List BreathPhase)
    (hph : s.activePreset.phases = some ps)
    (hHold : (ps.getD s.currentPhaseIndex dummyPhase).type = PhaseType.Hold) :
    ((getVisualState s).1 = 9/5 ∨ (getVisualState s).1 = 1) ∧
    ((getVisualState s).1 = 9/5 ↔
      ((ps.getD (if s.currentPhaseIndex = 0 then ps.length - 1 else s.currentPhaseIndex - 1)
          dummyPhase).type = PhaseType.Inhale ∨
       ((ps.getD (if s.currentPhaseIndex = 0 then ps.length - 1 else s.currentPhaseIndex - 1)
           dummyPhase).type = PhaseType.Hold ∧
        0 < (if s.currentPhaseIndex = 0 then ps.length - 1 else s.currentPhaseIndex - 1) ∧
        (ps.getD
            ((if s.currentPhaseIndex = 0 then ps.length - 1 else s.currentPhaseIndex - 1) - 1)
            dummyPhase).type = PhaseType.Inhale))) := by
  have hv : (getVisualState s).1 =
      if (ps.getD (if s.currentPhaseIndex = 0 then ps.length - 1 else s.currentPhaseIndex - 1)
            dummyPhase).type = PhaseType.Inhale ∨
          ((ps.getD (if s.currentPhaseIndex = 0 then ps.length - 1 else s.currentPhaseIndex - 1)
             dummyPhase).type = PhaseType.Hold ∧
           0 < (if s.currentPhaseIndex = 0 then ps.length - 1 else s.currentPhaseIndex - 1) ∧
           (ps.getD
               ((if s.currentPhaseIndex = 0 then ps.length - 1 else s.currentPhaseIndex - 1) - 1)
               dummyPhase).type = PhaseType.Inhale)
      then (9/5 : ℚ) else 1 := by
    simp only [getVisualState, hph, hHold]
  by_cases hc : (ps.getD (if s.currentPhaseIndex = 0 then ps.length - 1
        else s.currentPhaseIndex - 1) dummyPhase).type = PhaseType.Inhale ∨
      ((ps.getD (if s.currentPhaseIndex = 0 then ps.length - 1 else s.currentPhaseIndex - 1)
         dummyPhase).type = PhaseType.Hold ∧
       0 < (if s.currentPhaseIndex = 0 then ps.length - 1 else s.currentPhaseIndex - 1) ∧
       (ps.getD
           ((if s.currentPhaseIndex = 0 then ps.length - 1 else s.currentPhaseIndex - 1) - 1)
           dummyPhase).type = PhaseType.Inhale)
  · rw [hv, if_pos hc]
    exact ⟨Or.inl rfl, Iff.intro (fun _ => hc) (fun _ => rfl)⟩
  · rw [hv, if_neg hc]
    exact ⟨Or.inr rfl, Iff.intro (fun h => absurd h (by norm_num)) (fun h => absurd h hc)⟩

/-- C6 amended witness: the reachable deep-Hold state, whose scale is one
of the two constants. -/
theorem c6_amended_witness :
    (getVisualState c6s8).1 = 9/5 ∨ (getVisualState c6s8).1 = 1 :=
  (c6_amended c6s8 holdChainPhases (by rw [c6s8_eval]; rfl) (by rw [c6s8_eval]; rfl)).1

/-! Inductive-invariant lemmas for C9. -/

theorem inv_congr {s1 s2 : SessionState} (h : Inv s1)
    (hp : s2.activePreset = s1.activePreset)
    (hi : s2.currentPhaseIndex = s1.currentPhaseIndex)
    (hl : s2.phaseTimeLeft = s1.phaseTimeLeft)
    (htd : s2.timerDuration = s1.timerDuration) : Inv s2 := by
  unfold Inv at h ⊢
  rw [hp, hi, hl, htd]
  exact h

theorem inv_valid {s : SessionState} (h : Inv s) : ValidPreset s.activePreset := by
  unfold Inv at h
  exact h.1

theorem inv_initPreset (p : Preset) (s : SessionState) (hp : ValidPreset p) :
    Inv (initPreset p s) := by
  unfold Inv
  rw [initPreset_activePreset]
  refine ⟨hp, ?_⟩
  cases htype : p.type with
  | breathing =>
      cases hph : p.phases with
      | none =>
          unfold ValidPreset at hp
          simp only [htype, hph] at hp
      | some ps =>
          have hpv : ps ≠ [] := by
            unfold ValidPreset at hp
            simp only [htype, hph] at hp
            exact hp.1
          have hinit := initPreset_breathing p s ps htype hph
          simp only [htype, hph]
          rw [hinit.1, hinit.2]
          exact ⟨List.length_pos.mpr hpv, by linarith⟩
  | timer =>
      cases hd : p.defaultDuration with
      | none =>
          unfold ValidPreset at hp
          cases hph : p.phases <;> simp only [htype, hph, hd] at hp
      | some dd =>
          have hdpos : 0 < dd := by
            unfold ValidPreset at hp
            cases hph : p.phases <;> simp only [htype, hph, hd] at hp <;> exact hp
          cases hph : p.phases <;>
            simp only [htype, hph] <;>
            rw [initPreset_timer p s htype, hd] <;>
            refine ⟨?_, le_refl _⟩ <;>
            simp only [jsOr] <;>
            rw [if_neg hdpos.ne'] <;>
            linarith

theorem inv_toggleTimer (s : SessionState) (h : Inv s) : Inv (toggleTimer s) := by
  unfold toggleTimer
  split <;> exact inv_congr h rfl rfl rfl rfl

theorem inv_phaseSwitchEffect (s : SessionState) (h : Inv s) : Inv (phaseSwitchEffect s) := by
  cases htype : s.activePreset.type with
  | breathing =>
      cases hph : s.activePreset.phases with
      | none =>
          have he : phaseSwitchEffect s = s := by
            unfold phaseSwitchEffect
            simp only [htype, hph]
          rw [he]
          exact h
      | some ps =>
          by_cases hc : s.appState = AppState.Running ∧ s.phaseTimeLeft ≤ 1/20
          · rw [phaseSwitchEffect_pos s ps htype hph hc.1 hc.2]
            have hval := inv_valid h
            have hlen : 0 < ps.length := by
              unfold ValidPreset at hval
              simp only [htype, hph] at hval
              exact List.length_pos.mpr hval.1
            unfold Inv
            simp only [htype, hph]
            exact ⟨hval, Nat.mod_lt _ hlen, by linarith⟩
          · rw [phaseSwitchEffect_neg s ps htype hph hc]
            exact h
  | timer =>
      have he : phaseSwitchEffect s = s := by
        unfold phaseSwitchEffect
        cases hph : s.activePreset.phases <;> simp only [htype, hph]
      rw [he]
      exact h

theorem inv_advancePreset (d : ℚ) (s : SessionState) (h : Inv s) (hd : 0 ≤ d) :
    Inv (advancePreset d s) := by
  cases htype : s.activePreset.type with
  | breathing =>
      cases hph : s.activePreset.phases with
      | none =>
          have he : advancePreset d s = s := by
            unfold advancePreset
            simp only [htype, hph]
          rw [he]
          exact h
      | some ps =>
          have he : advancePreset d s = { s with phaseTimeLeft := s.phaseTimeLeft - d } := by
            unfold advancePreset
            simp only [htype, hph]
          rw [he]
          unfold Inv at h ⊢
          obtain ⟨hval, hrest⟩ := h
          simp only [htype, hph] at hrest ⊢
          exact ⟨hval, hrest.1, by linarith [hrest.2]⟩
  | timer =>
      have he : advancePreset d s =
          if s.timerDuration - d ≤ 0 then
            { s with appState := AppState.Completed, timerDuration := 0 }
          else
            { s with timerDuration := s.timerDuration - d } := by
        unfold advancePreset
        cases hph : s.activePreset.phases <;> simp only [htype, hph]
      unfold Inv at h ⊢
      obtain ⟨hval, hrest⟩ := h
      cases hph : s.activePreset.phases <;> simp only [htype, hph] at hrest
      all_goals rcases le_or_lt (s.timerDuration - d) 0 with hle | hlt
      all_goals first
        | (rw [he, if_pos hle]
           simp only [htype, hph]
           exact ⟨hval, le_refl 0, by linarith [hrest.1, hrest.2]⟩)
        | (rw [he, if_neg (not_le.mpr hlt)]
           simp only [htype, hph]
           exact ⟨hval, by linarith, by linarith [hrest.2]⟩)

theorem inv_tick (t : ℚ) (s : SessionState) (h : Inv s)
    (hmono : ∀ t0, s.previousTime = some t0 → t0 ≤ t) : Inv (tick t s) := by
  by_cases hrun : s.appState = AppState.Running
  · cases hprev : s.previousTime with
    | none =>
        have ht : tick t s = { s with previousTime := some t } := by
          unfold tick
          rw [if_pos hrun, hprev]
        rw [ht]
        exact inv_congr h rfl rfl rfl rfl
    | some prev =>
        have hd : 0 ≤ tickDelta t prev := by
          unfold tickDelta
          have := hmono prev hprev
          apply div_nonneg (by linarith) (by norm_num)
        have ht : tick t s = { advancePreset (tickDelta t prev)
            { s with totalSessionTime := s.totalSessionTime + tickDelta t prev } with
            previousTime := some t } := by
          unfold tick
          rw [if_pos hrun, hprev]
        rw [ht]
        have hinv1 : Inv { s with totalSessionTime := s.totalSessionTime + tickDelta t prev } :=
          inv_congr h rfl rfl rfl rfl
        have hinv2 := inv_advancePreset (tickDelta t prev) _ hinv1 hd
        exact inv_congr hinv2 rfl rfl rfl rfl
  · have ht : tick t s = s := by
      unfold tick
      rw [if_neg hrun]
    rw [ht]
    exact h

theorem inv_step (s : SessionState) (e : Event) (h : Inv (applyEvent s e)) :
    Inv (step s e) := by
  unfold step
  split
  · exact h
  · exact inv_congr h (startStopEffect_activePreset _) (startStopEffect_currentPhaseIndex _)
      (startStopEffect_phaseTimeLeft _) (startStopEffect_timerDuration _)

theorem reachable_inv : ∀ {s : SessionState}, Reachable s → Inv s := by
  intro s h
  induction h with
  | init p s0 hp => exact inv_initPreset p s0 hp
  | toggle h ih => exact inv_step _ _ (inv_toggleTimer _ ih)
  | reset h ih => exact inv_step _ _ (inv_initPreset _ _ (inv_valid ih))
  | select p hp h ih => exact inv_step _ _ (inv_initPreset p _ hp)
  | phaseSwitch h ih => exact inv_step _ _ (inv_phaseSwitchEffect _ ih)
  | tick t h hmono ih => exact inv_step _ _ (inv_tick t _ ih hmono)

/-- C9: in every state reachable by commands, phase switches and in-order
ticks from a valid preset (the frame source never delivers a timestamp
below the recorded baseline), hence in particular while Running or Paused:
breathing presets keep 0 ≤ currentPhaseIndex < phases.length and
phaseTimeLeft ≤ current duration + 0.05, and timer presets keep
0 ≤ timerRemaining ≤ defaultDuration * 60. -/
theorem c9_invariant (s : SessionState) (hr : Reachable s)
    (hrs : s.appState = AppState.Running ∨ s.appState = AppState.Paused) :
    (∀ ps, s.activePreset.type = PresetType.breathing → s.activePreset.phases = some ps →
      s.currentPhaseIndex < ps.length ∧
      s.phaseTimeLeft ≤ (ps.getD s.currentPhaseIndex dummyPhase).duration + 1/20) ∧
    (∀ dd, s.activePreset.type = PresetType.timer → s.activePreset.defaultDuration = some dd →
      0 ≤ s.timerDuration ∧ s.timerDuration ≤ dd * 60) := by
  have h := reachable_inv hr
  unfold Inv at h
  obtain ⟨hval, hrest⟩ := h
  constructor
  · intro ps htype hph
    simp only [htype, hph] at hrest
    exact hrest
  · intro dd htype hd
    have hdpos : 0 < dd := by
      unfold ValidPreset at hval
      cases hph : s.activePreset.phases <;> simp only [htype, hph, hd] at hval <;> exact hval
    cases hph : s.activePreset.phases <;> simp only [htype, hph] at hrest <;>
      rw [hd] at hrest <;>
      simp only [jsOr] at hrest <;>
      rw [if_neg hdpos.ne'] at hrest <;>
      exact hrest

/-- C9 witness: the freshly started one-phase breathing preset satisfies
the breathing bounds, and the freshly started 1-minute timer satisfies the
timer bounds. -/
theorem c9_invariant_witness :
    Reachable c5s2 ∧
    (c5s2.currentPhaseIndex < singleInhalePhases.length ∧
      c5s2.phaseTimeLeft ≤
        (singleInhalePhases.getD c5s2.currentPhaseIndex dummyPhase).duration + 1/20) ∧
    (0 ≤ c7s2.timerDuration ∧ c7s2.timerDuration ≤ 1 * 60) := by
  have h1 := (c9_invariant c5s2 reach_c5s2 (Or.inl (by rw [c5s2_eval]))).1
    singleInhalePhases (by rw [c5s2_eval]; rfl) (by rw [c5s2_eval]; rfl)
  have hr2 : Reachable c7s2 := by
    have h0 : Reachable c7s1 :=
      Reachable.toggle (Reachable.init timerPreset1 blank valid_timerPreset1)
    refine Reachable.tick 0 h0 ?_
    intro t0 h
    rw [c7s1_eval] at h
    exact absurd h (by simp)
  have h2 := (c9_invariant c7s2 hr2 (Or.inl (by rw [c7s2_eval]))).2
    1 (by rw [c7s2_eval]; rfl) (by rw [c7s2_eval]; rfl)
  exact ⟨reach_c5s2, h1, h2⟩

end BreathEx
